import Mathlib

/-!
# Verification of the xsprite keyboard-presence reconciler

Shallow embedding of `src/init_keyboard.rs`: the reconciliation engine
(`KeyboardPresenceState::update`), the udev enumeration
(`get_udev_keyboards`, `device_is_keyboard`), the two-phase XInput
string-property read (`xinput_get_string_property`), and the init-command
dispatcher (`init_keyboard`, the dispatch part of `reinit_loop`).

Rust `HashMap<String, V>` values are embedded as association lists
`List (String × V)`; `lookupAM` is first-match lookup, matching
`HashMap::get`. Iteration order of a `HashMap` is unspecified in Rust, so
the list order of an embedded map stands for one arbitrary iteration
order; all order-sensitive claims below are stated only up to what the
source guarantees.
-/

set_option autoImplicit false
set_option maxRecDepth 4096

namespace XSprite

/-- Embeds Rust struct `KeyboardInfo` (u8/u16 fields become `Nat`). -/
structure KeyboardInfo where
  name : String
  device_node : String
  xinput_id : Nat
  vendor_id : Nat
  product_id : Nat
  deriving DecidableEq, Repr

/-- Embeds Rust struct `XInputKeyboardInfo`. -/
structure XInputKeyboardInfo where
  name : String
  xinput_id : Nat
  deriving DecidableEq, Repr

/-- Embeds Rust struct `UdevKeyboardInfo`. -/
structure UdevKeyboardInfo where
  vendor_id : Nat
  product_id : Nat
  deriving DecidableEq, Repr

/-- A `HashMap<String, V>` embedded as an association list. -/
abbrev AssocMap (α : Type) := List (String × α)

/-- First-match lookup on an association list; embeds `HashMap::get` /
`HashMap::contains_key`. -/
def lookupAM {α : Type} : AssocMap α → String → Option α
  | [], _ => none
  | p :: rest, n => if p.1 = n then some p.2 else lookupAM rest n

/-- The merge loop of `KeyboardPresenceState::update` (lines 58-70): for
every `(device_node, xinput_kbd)` of the xinput map whose node is also a
key of the udev map, build a `KeyboardInfo` taking name/xinput_id from the
xinput entry and vendor/product from the udev entry. -/
def mergeCandidates (x : AssocMap XInputKeyboardInfo)
    (d : AssocMap UdevKeyboardInfo) : AssocMap KeyboardInfo :=
  x.filterMap (fun p =>
    match lookupAM d p.1 with
    | none => none
    | some udev_kbd =>
      some (p.1,
        { name := p.2.name
          device_node := p.1
          xinput_id := p.2.xinput_id
          vendor_id := udev_kbd.vendor_id
          product_id := udev_kbd.product_id }))

/-- The added/insert loop of `update` (lines 75-81): walk the merged map;
a node not yet in `known_keyboards` is inserted there and pushed onto
`added`; a node already known is left untouched. -/
def updateLoop : AssocMap KeyboardInfo → List KeyboardInfo →
    AssocMap KeyboardInfo → List KeyboardInfo × AssocMap KeyboardInfo
  | [], added, known => (added, known)
  | p :: rest, added, known =>
    if (lookupAM known p.1).isSome then
      updateLoop rest added known
    else
      updateLoop rest (added ++ [p.2]) (known ++ [p])

/-- `KeyboardPresenceState::update` (lines 50-86): merge the two candidate
maps, record additions, then `retain` only the nodes of this pass's merge.
Returns `(added, new known_keyboards)`. -/
def update (x : AssocMap XInputKeyboardInfo) (d : AssocMap UdevKeyboardInfo)
    (known : AssocMap KeyboardInfo) :
    List KeyboardInfo × AssocMap KeyboardInfo :=
  let merged := mergeCandidates x d
  let r := updateLoop merged [] known
  (r.1, r.2.filter (fun kv => (lookupAM merged kv.1).isSome))

/-! ## Udev enumeration (`get_udev_keyboards`, `device_is_keyboard`) -/

/-- A udev `Device` as the source reads it: an optional device node and a
string-keyed property table (`property_value`). -/
structure UDevice where
  devnode : Option String
  props : List (String × String)
  deriving DecidableEq, Repr

/-- `Device::property_value` on the embedded device. -/
def property_value (d : UDevice) (key : String) : Option String :=
  lookupAM d.props key

/-- `device_is_keyboard` (lines 237-248): ID_INPUT_KEYBOARD equals "1",
ID_INPUT_KEY equals "1" (a missing property counts as false), and the
device has a device node. -/
def device_is_keyboard (d : UDevice) : Bool :=
  let input_keyboard :=
    match property_value d "ID_INPUT_KEYBOARD" with
    | some value => value = "1"
    | none => false
  let input_key :=
    match property_value d "ID_INPUT_KEY" with
    | some value => value = "1"
    | none => false
  let has_device_node := d.devnode.isSome
  input_keyboard && input_key && has_device_node

/-- Value of one hexadecimal digit, as Rust `char::to_digit(16)` accepts
them: `0-9`, `a-f`, `A-F`. -/
def hexDigitVal (c : Char) : Option Nat :=
  if '0' ≤ c ∧ c ≤ '9' then some (c.toNat - '0'.toNat)
  else if 'a' ≤ c ∧ c ≤ 'f' then some (c.toNat - 'a'.toNat + 10)
  else if 'A' ≤ c ∧ c ≤ 'F' then some (c.toNat - 'A'.toNat + 10)
  else none

/-- Digit-accumulation loop of `u16::from_str_radix(s, 16)`. -/
def parseHexAux : List Char → Nat → Option Nat
  | [], acc => some acc
  | c :: rest, acc =>
    match hexDigitVal c with
    | none => none
    | some dv => parseHexAux rest (acc * 16 + dv)

/-- `u16::from_str_radix(s, 16)`: an optional leading `+` sign, then at
least one hex digit; `none` on an empty digit string, a non-hex character,
or a value exceeding `u16` (Rust's accumulator is monotone, so the final
bound check is equivalent to Rust's per-step overflow check). The `-0`
corner of Rust's signed parser for unsigned types is not modelled. -/
def from_str_radix_16 (s : String) : Option Nat :=
  let cs :=
    match s.data with
    | '+' :: rest => rest
    | other => other
  if cs.isEmpty then none
  else
    match parseHexAux cs 0 with
    | none => none
    | some v => if v < 65536 then some v else none

/-- `HashMap::insert` on the association-list embedding: replace an
existing binding for the key, else add one. -/
def insertAM {α : Type} (k : String) (v : α) (m : AssocMap α) : AssocMap α :=
  if (lookupAM m k).isSome then
    m.map (fun p => if p.1 = k then (k, v) else p)
  else
    m ++ [(k, v)]

/-- The device loop of `get_udev_keyboards` (lines 95-118), with the
accumulated `keyboards` map made explicit. A non-keyboard device, a device
without a node, or a device missing `ID_VENDOR_ID` / `ID_MODEL_ID` is
skipped (`continue`); the source's `.unwrap()` on `from_str_radix` panics
on an unparsable value, embedded as the whole pass returning `none`. -/
def get_udev_aux (acc : AssocMap UdevKeyboardInfo) :
    List UDevice → Option (AssocMap UdevKeyboardInfo)
  | [] => some acc
  | device :: rest =>
    if !device_is_keyboard device then get_udev_aux acc rest
    else
      match device.devnode with
      | none => get_udev_aux acc rest
      | some devnode =>
        match property_value device "ID_VENDOR_ID" with
        | none => get_udev_aux acc rest
        | some vendor_str =>
          match from_str_radix_16 vendor_str with
          | none => none
          | some vendor_id =>
            match property_value device "ID_MODEL_ID" with
            | none => get_udev_aux acc rest
            | some product_str =>
              match from_str_radix_16 product_str with
              | none => none
              | some product_id =>
                get_udev_aux
                  (insertAM devnode ⟨vendor_id, product_id⟩ acc) rest

/-- `KeyboardPresenceState::get_udev_keyboards` (lines 88-121) over the
list of devices the enumerator scan yields. -/
def get_udev_keyboards (devices : List UDevice) :
    Option (AssocMap UdevKeyboardInfo) :=
  get_udev_aux [] devices

/-! ## XInput two-phase string-property read -/

/-- The fields of the `xinput_get_device_property` reply the source uses:
`length` (bytes of data returned, as the source treats it), `bytes_after`,
and the `Data8` payload decoded as a string. -/
structure PropReply where
  length : Nat
  bytes_after : Nat
  data : String
  deriving DecidableEq, Repr

/-- `xinput_get_string_property` (lines 250-283) over an abstract server:
`server len` is the reply to a read of `len` bytes at offset 0. An initial
read of `INITIAL_BUFFER = 256` bytes; an empty reply yields `""`; if
`bytes_after` is nonzero, one re-read sized `length + bytes_after`, whose
payload is the result; otherwise the first payload is the result. -/
def xinput_get_string_property (server : Nat → PropReply) : String :=
  let reply := server 256
  if reply.length = 0 then ""
  else if reply.bytes_after ≠ 0 then
    let needed_length := reply.length + reply.bytes_after
    (server needed_length).data
  else reply.data

/-- Modelled from the spec: the display server's bounded property read
(the transport behind `xinput_get_device_property_immediate`, which is not
part of this repository). A property whose full value is `content`
answers a read of `len` bytes with the first `min len total` bytes, and
reports the rest as `bytes_after`. -/
def xServerModel (content : String) (len : Nat) : PropReply :=
  let total := content.length
  let returned := min len total
  { length := returned
    bytes_after := total - returned
    data := String.mk (content.data.take returned) }

/-! ## Init-command dispatch -/

/-- Decimal rendering of a `Nat`, as Rust `u8::to_string`. -/
def natDecimal (n : Nat) : String := Nat.repr n

/-- The lowercase hex digit characters, as Rust `{:x}` produces them. -/
def hexDigitChar (n : Nat) : Char :=
  if n < 10 then Char.ofNat ('0'.toNat + n)
  else Char.ofNat ('a'.toNat + (n - 10))

/-- Rust `format!("{:04x}", v)` for a `u16` value: zero-padded to width 4,
lowercase. For `v < 65536` this is exactly the four nibbles of `v`. -/
def format04x (v : Nat) : String :=
  String.mk [hexDigitChar (v / 4096 % 16), hexDigitChar (v / 256 % 16),
    hexDigitChar (v / 16 % 16), hexDigitChar (v % 16)]

/-- The four positional arguments `init_keyboard` (lines 183-188) passes
to the configured command, in order. -/
def init_keyboard_args (keyboard : KeyboardInfo) : List String :=
  [keyboard.name,
   keyboard.device_node,
   natDecimal keyboard.xinput_id,
   format04x keyboard.vendor_id ++ ":" ++ format04x keyboard.product_id]

/-- Outcome of `cmd.status().await` in `init_keyboard`. -/
inductive SpawnStatus where
  | exited (code : Nat)
  | spawnFailed (msg : String)
  deriving DecidableEq, Repr

/-- The effect of `init_keyboard` (lines 190-200) after the spawn: a
non-zero exit is logged, a spawn failure is logged, success logs nothing;
nothing else happens (the function returns unit). -/
def init_keyboard_logs (cmd : String) (status : SpawnStatus) : List String :=
  match status with
  | .exited code =>
    if code ≠ 0 then
      ["init_keyboard_command exited with status " ++ natDecimal code]
    else []
  | .spawnFailed e => ["Failed to run " ++ cmd ++ ": " ++ e]

/-- The dispatch loop of `reinit_loop` (lines 168-170): every added
keyboard is dispatched in order, unconditionally — `init_keyboard` returns
unit, so no spawn outcome can stop the loop. Returns the dispatched
records and the accumulated diagnostics. -/
def dispatchBatch (cmd : String) (spawn : KeyboardInfo → SpawnStatus) :
    List KeyboardInfo → List KeyboardInfo × List String
  | [] => ([], [])
  | keyboard :: rest =>
    let logs := init_keyboard_logs cmd (spawn keyboard)
    let r := dispatchBatch cmd spawn rest
    (keyboard :: r.1, logs ++ r.2)

/-- One iteration of `reinit_loop` (lines 166-175) up to the wait: run
`update`, dispatch every added keyboard. Returns the new known map, the
dispatched records, and the diagnostics. -/
def reinitStep (cmd : String) (x : AssocMap XInputKeyboardInfo)
    (d : AssocMap UdevKeyboardInfo) (known : AssocMap KeyboardInfo)
    (spawn : KeyboardInfo → SpawnStatus) :
    AssocMap KeyboardInfo × List KeyboardInfo × List String :=
  let r := update x d known
  let b := dispatchBatch cmd spawn r.1
  (r.2, b.1, b.2)

/-! ## Association-list lemmas -/

theorem lookupAM_append {α : Type} (l₁ l₂ : AssocMap α) (n : String) :
    lookupAM (l₁ ++ l₂) n =
      match lookupAM l₁ n with
      | some v => some v
      | none => lookupAM l₂ n := by
  induction l₁ with
  | nil => simp [lookupAM]
  | cons p rest ih =>
    by_cases h : p.1 = n
    · simp [lookupAM, h]
    · simp [lookupAM, h, ih]

theorem lookupAM_filter {α : Type} (pred : String → Bool) (l : AssocMap α)
    (n : String) :
    lookupAM (l.filter (fun p => pred p.1)) n =
      if pred n then lookupAM l n else none := by
  induction l with
  | nil => simp [lookupAM]
  | cons p rest ih =>
    rw [List.filter_cons]
    by_cases hk : p.1 = n
    · subst hk
      by_cases hp : pred p.1
      · simp [hp, lookupAM, ih]
      · simp [hp, ih, lookupAM]
    · by_cases hp : pred p.1
      · simp [hp, lookupAM, hk, ih]
      · simp [hp, lookupAM, hk, ih]

theorem lookupAM_isSome_of_mem {α : Type} {l : AssocMap α} {p : String × α}
    (h : p ∈ l) : (lookupAM l p.1).isSome := by
  induction l with
  | nil => cases h
  | cons q rest ih =>
    rcases List.mem_cons.mp h with rfl | hm
    · simp [lookupAM]
    · by_cases hq : q.1 = p.1 <;> simp [lookupAM, hq, ih hm]

theorem lookupAM_eq_none_iff {α : Type} (l : AssocMap α) (n : String) :
    lookupAM l n = none ↔ ∀ p ∈ l, p.1 ≠ n := by
  induction l with
  | nil => simp [lookupAM]
  | cons q rest ih =>
    by_cases hq : q.1 = n
    · simp [lookupAM, hq]
    · simp [lookupAM, hq, ih]

/-! ## Lemmas about the merge and the update loop -/

theorem mergeCandidates_device_node {x : AssocMap XInputKeyboardInfo}
    {d : AssocMap UdevKeyboardInfo} {p : String × KeyboardInfo}
    (h : p ∈ mergeCandidates x d) : p.2.device_node = p.1 := by
  induction x with
  | nil => simp [mergeCandidates] at h
  | cons q rest ih =>
    rw [mergeCandidates, List.filterMap_cons] at h
    cases hq : lookupAM d q.1 with
    | none =>
      rw [hq] at h
      exact ih h
    | some u =>
      rw [hq] at h
      rcases List.mem_cons.mp h with rfl | hm
      · rfl
      · exact ih hm

theorem mergeCandidates_keys_sublist (x : AssocMap XInputKeyboardInfo)
    (d : AssocMap UdevKeyboardInfo) :
    List.Sublist ((mergeCandidates x d).map Prod.fst) (x.map Prod.fst) := by
  induction x with
  | nil => simp [mergeCandidates]
  | cons q rest ih =>
    rw [mergeCandidates, List.filterMap_cons]
    cases hq : lookupAM d q.1 with
    | none => exact List.Sublist.cons q.1 ih
    | some u => exact List.Sublist.cons₂ q.1 ih

theorem mergeCandidates_lookup_none_left {x : AssocMap XInputKeyboardInfo}
    (d : AssocMap UdevKeyboardInfo) {n : String} (h : lookupAM x n = none) :
    lookupAM (mergeCandidates x d) n = none := by
  rw [lookupAM_eq_none_iff] at h ⊢
  intro p hp
  have hkeys := (mergeCandidates_keys_sublist x d).subset
    (List.mem_map_of_mem Prod.fst hp)
  rcases List.mem_map.mp hkeys with ⟨q, hq, he⟩
  exact he ▸ h q hq

theorem mergeCandidates_lookup_none_right (x : AssocMap XInputKeyboardInfo)
    {d : AssocMap UdevKeyboardInfo} {n : String} (h : lookupAM d n = none) :
    lookupAM (mergeCandidates x d) n = none := by
  rw [lookupAM_eq_none_iff]
  intro p hp he
  induction x with
  | nil => simp [mergeCandidates] at hp
  | cons q rest ih =>
    rw [mergeCandidates, List.filterMap_cons] at hp
    cases hq : lookupAM d q.1 with
    | none =>
      rw [hq] at hp
      exact ih hp
    | some u =>
      rw [hq] at hp
      rcases List.mem_cons.mp hp with rfl | hm
      · rw [he] at hq
        rw [h] at hq
        cases hq
      · exact ih hm

theorem updateLoop_eq (m : AssocMap KeyboardInfo)
    (hnd : (m.map Prod.fst).Nodup) (added : List KeyboardInfo)
    (known : AssocMap KeyboardInfo) :
    updateLoop m added known =
      (added ++ (m.filter (fun p => (lookupAM known p.1).isNone)).map Prod.snd,
       known ++ m.filter (fun p => (lookupAM known p.1).isNone)) := by
  induction m generalizing added known with
  | nil => simp [updateLoop]
  | cons p rest ih =>
    have hnd' : (rest.map Prod.fst).Nodup := (List.nodup_cons.mp hnd).2
    have hp : p.1 ∉ rest.map Prod.fst := (List.nodup_cons.mp hnd).1
    rw [updateLoop]
    by_cases hk : (lookupAM known p.1).isSome
    · rw [if_pos hk, ih hnd' added known]
      have hlk : (lookupAM known p.1).isNone = false := by
        cases h' : lookupAM known p.1
        · rw [h'] at hk; cases hk
        · rfl
      simp [List.filter_cons, hlk]
    · rw [if_neg hk, ih hnd' (added ++ [p.2]) (known ++ [p])]
      have hlk : (lookupAM known p.1).isNone = true := by
        cases h' : lookupAM known p.1
        · rfl
        · rw [h'] at hk; exact absurd rfl hk
      have hfil : rest.filter (fun q => (lookupAM (known ++ [p]) q.1).isNone)
          = rest.filter (fun q => (lookupAM known q.1).isNone) := by
        apply List.filter_congr
        intro q hq
        have hne : q.1 ≠ p.1 := by
          intro he
          exact hp (he ▸ List.mem_map_of_mem Prod.fst hq)
        rw [lookupAM_append]
        cases lookupAM known q.1 with
        | some w => rfl
        | none => simp [lookupAM, Ne.symm hne]
      rw [hfil]
      simp [List.filter_cons, hlk, List.append_assoc]

theorem updateLoop_added_mem (m : AssocMap KeyboardInfo)
    (added : List KeyboardInfo) (known : AssocMap KeyboardInfo)
    (r : KeyboardInfo) (h : r ∈ (updateLoop m added known).1) :
    r ∈ added ∨ ∃ p, p ∈ m ∧ p.2 = r := by
  induction m generalizing added known with
  | nil =>
    simp only [updateLoop] at h
    exact Or.inl h
  | cons p rest ih =>
    rw [updateLoop] at h
    by_cases hk : (lookupAM known p.1).isSome
    · rw [if_pos hk] at h
      rcases ih added known h with ha | ⟨q, hq, he⟩
      · exact Or.inl ha
      · exact Or.inr ⟨q, List.mem_cons_of_mem _ hq, he⟩
    · rw [if_neg hk] at h
      rcases ih (added ++ [p.2]) (known ++ [p]) h with ha | ⟨q, hq, he⟩
      · rcases List.mem_append.mp ha with h1 | h2
        · exact Or.inl h1
        · exact Or.inr ⟨p, List.mem_cons_self p rest, (List.mem_singleton.mp h2).symm⟩
      · exact Or.inr ⟨q, List.mem_cons_of_mem _ hq, he⟩

/-- Closed form of `update` under the map invariant (an xinput `HashMap`
has no duplicate keys): `added` is the merged entries whose node is new,
and the retained known map is the old map extended by those entries and
restricted to the merged keys. -/
theorem update_eq (x : AssocMap XInputKeyboardInfo)
    (d : AssocMap UdevKeyboardInfo) (known : AssocMap KeyboardInfo)
    (h : (x.map Prod.fst).Nodup) :
    update x d known =
      (((mergeCandidates x d).filter
          (fun p => (lookupAM known p.1).isNone)).map Prod.snd,
       (known ++ (mergeCandidates x d).filter
          (fun p => (lookupAM known p.1).isNone)).filter
         (fun kv => (lookupAM (mergeCandidates x d) kv.1).isSome)) := by
  have hm : ((mergeCandidates x d).map Prod.fst).Nodup :=
    (mergeCandidates_keys_sublist x d).nodup h
  rw [update, updateLoop_eq (mergeCandidates x d) hm [] known]
  simp

theorem lookupAM_filter_keySome {α β : Type} (m : AssocMap β) (l : AssocMap α)
    (n : String) :
    lookupAM (l.filter (fun kv => (lookupAM m kv.1).isSome)) n =
      if (lookupAM m n).isSome then lookupAM l n else none :=
  lookupAM_filter (fun k => (lookupAM m k).isSome) l n

theorem lookupAM_filter_keyNone {α β : Type} (m : AssocMap β) (l : AssocMap α)
    (n : String) :
    lookupAM (l.filter (fun kv => (lookupAM m kv.1).isNone)) n =
      if (lookupAM m n).isNone then lookupAM l n else none :=
  lookupAM_filter (fun k => (lookupAM m k).isNone) l n

theorem mapfst_filter_key {α : Type} (pred : String → Bool) (l : AssocMap α) :
    (l.filter (fun p => pred p.1)).map Prod.fst
      = (l.map Prod.fst).filter pred := by
  induction l with
  | nil => rfl
  | cons p rest ih =>
    rw [List.filter_cons, List.map_cons, List.filter_cons]
    by_cases hp : pred p.1 <;> simp [hp, ih]

/-- Pointwise description of the known map after `update`: a node of the
merge that was unknown gets this pass's record; a node of the merge that
was already known keeps its previously stored record; a node outside the
merge is dropped. -/
theorem update_known_lookup (x : AssocMap XInputKeyboardInfo)
    (d : AssocMap UdevKeyboardInfo) (known : AssocMap KeyboardInfo)
    (h : (x.map Prod.fst).Nodup) (n : String) :
    lookupAM (update x d known).2 n =
      match lookupAM (mergeCandidates x d) n, lookupAM known n with
      | some r, none => some r
      | some _, some old => some old
      | none, _ => none := by
  rw [update_eq x d known h]
  rw [lookupAM_filter_keySome, lookupAM_append, lookupAM_filter_keyNone]
  cases hm : lookupAM (mergeCandidates x d) n with
  | none => simp
  | some r =>
    cases hk : lookupAM known n with
    | none => simp
    | some old => simp

/-- The dispatch loop dispatches every record of the batch, whatever the
spawn outcomes are. -/
theorem dispatchBatch_fst (cmd : String) (spawn : KeyboardInfo → SpawnStatus)
    (ks : List KeyboardInfo) : (dispatchBatch cmd spawn ks).1 = ks := by
  induction ks with
  | nil => rfl
  | cons k rest ih => simp [dispatchBatch, ih]

/-- Boolean-to-propositional reading of `device_is_keyboard`. -/
theorem device_is_keyboard_iff (d : UDevice) :
    device_is_keyboard d = true ↔
      (property_value d "ID_INPUT_KEYBOARD" = some "1" ∧
       property_value d "ID_INPUT_KEY" = some "1" ∧
       d.devnode.isSome = true) := by
  unfold device_is_keyboard
  cases h1 : property_value d "ID_INPUT_KEYBOARD" <;>
    cases h2 : property_value d "ID_INPUT_KEY" <;>
      simp [h1, h2, and_assoc]

/-! ## Claim theorems -/

/-- C10: `device_is_keyboard` is total and treats absence as rejection: it
returns `true` exactly when the device's ID_INPUT_KEYBOARD property equals
"1", its ID_INPUT_KEY property equals "1", and the device has a device
node; in particular a device missing either property is classified as not
a keyboard rather than causing an error. -/
theorem c10_keyboard_heuristic (d : UDevice) :
    device_is_keyboard d = true ↔
      (property_value d "ID_INPUT_KEYBOARD" = some "1" ∧
       property_value d "ID_INPUT_KEY" = some "1" ∧
       d.devnode.isSome = true) :=
  device_is_keyboard_iff d

/-- C4: the external command always receives exactly four positional
arguments — name, device node, decimal xinput id, and
vendor:product as two 4-digit lowercase hex fields joined by a colon — and
the record {name:"Foo", device_node:"/dev/input/event3", xinput_id:9,
vendor_id:0x046d, product_id:0xc52b} yields the argv tail
["Foo", "/dev/input/event3", "9", "046d:c52b"]. -/
theorem c4_dispatch_args :
    (∀ keyboard : KeyboardInfo, (init_keyboard_args keyboard).length = 4) ∧
    init_keyboard_args
      { name := "Foo", device_node := "/dev/input/event3", xinput_id := 9,
        vendor_id := 0x046d, product_id := 0xc52b }
      = ["Foo", "/dev/input/event3", "9", "046d:c52b"] := by
  constructor
  · intro keyboard
    rfl
  · decide

/-- C8: a non-zero exit status and a spawn failure of the init command are
only logged: whatever the spawn outcomes, the reconciliation step
dispatches exactly the records `update` returned (no dispatch is skipped,
the loop is not aborted) and the resulting known map is exactly the one
`update` produced, independent of the spawn outcomes. -/
theorem c8_dispatch_failures_logged_only (cmd : String)
    (x : AssocMap XInputKeyboardInfo) (d : AssocMap UdevKeyboardInfo)
    (known : AssocMap KeyboardInfo)
    (spawn spawn2 : KeyboardInfo → SpawnStatus) :
    (reinitStep cmd x d known spawn).1 = (update x d known).2 ∧
    (reinitStep cmd x d known spawn).2.1 = (update x d known).1 ∧
    (reinitStep cmd x d known spawn).1 = (reinitStep cmd x d known spawn2).1 ∧
    (reinitStep cmd x d known spawn).2.1
      = (reinitStep cmd x d known spawn2).2.1 := by
  refine ⟨rfl, dispatchBatch_fst cmd spawn (update x d known).1, rfl, ?_⟩
  rw [show (reinitStep cmd x d known spawn).2.1
      = (dispatchBatch cmd spawn (update x d known).1).1 from rfl]
  rw [show (reinitStep cmd x d known spawn2).2.1
      = (dispatchBatch cmd spawn2 (update x d known).1).1 from rfl]
  rw [dispatchBatch_fst, dispatchBatch_fst]

/-- C7: forget-and-reappear. Starting from an empty known map, three
passes whose merges are R1={A,B}, R2={A}, R3={A,B} return added sets
{A,B}, {}, {B}: B is reported as newly appeared again in the third pass
although it already appeared in the first. -/
theorem c7_forget_and_reappear :
    (update [("/dev/input/event1", ⟨"KbdA", 2⟩),
             ("/dev/input/event2", ⟨"KbdB", 3⟩)]
        [("/dev/input/event1", ⟨1, 2⟩), ("/dev/input/event2", ⟨3, 4⟩)]
        []).1.map (fun r => r.device_node)
      = ["/dev/input/event1", "/dev/input/event2"] ∧
    (update [("/dev/input/event1", ⟨"KbdA", 2⟩)]
        [("/dev/input/event1", ⟨1, 2⟩)]
        (update [("/dev/input/event1", ⟨"KbdA", 2⟩),
                 ("/dev/input/event2", ⟨"KbdB", 3⟩)]
          [("/dev/input/event1", ⟨1, 2⟩), ("/dev/input/event2", ⟨3, 4⟩)]
          []).2).1
      = [] ∧
    (update [("/dev/input/event1", ⟨"KbdA", 2⟩),
             ("/dev/input/event2", ⟨"KbdB", 3⟩)]
        [("/dev/input/event1", ⟨1, 2⟩), ("/dev/input/event2", ⟨3, 4⟩)]
        (update [("/dev/input/event1", ⟨"KbdA", 2⟩)]
          [("/dev/input/event1", ⟨1, 2⟩)]
          (update [("/dev/input/event1", ⟨"KbdA", 2⟩),
                   ("/dev/input/event2", ⟨"KbdB", 3⟩)]
            [("/dev/input/event1", ⟨1, 2⟩), ("/dev/input/event2", ⟨3, 4⟩)]
            []).2).2).1.map (fun r => r.device_node)
      = ["/dev/input/event2"] := by
  refine ⟨?_, ?_, ?_⟩ <;> decide

/-- C5: `update` is idempotent against unchanged candidate maps: a second
call with the same `x` and `d` returns an empty added set and leaves the
known map exactly as the first call left it. -/
theorem c5_update_idempotent (x : AssocMap XInputKeyboardInfo)
    (d : AssocMap UdevKeyboardInfo) (known : AssocMap KeyboardInfo)
    (h : (x.map Prod.fst).Nodup) :
    (update x d (update x d known).2).1 = [] ∧
    (update x d (update x d known).2).2 = (update x d known).2 := by
  have hall : ∀ p ∈ mergeCandidates x d,
      ¬((lookupAM (update x d known).2 p.1).isNone = true) := by
    intro p hp
    have hs := lookupAM_isSome_of_mem hp
    rw [update_known_lookup x d known h p.1]
    cases hm : lookupAM (mergeCandidates x d) p.1 with
    | none => rw [hm] at hs; cases hs
    | some r => cases hk : lookupAM known p.1 <;> simp
  have hnil : (mergeCandidates x d).filter
      (fun p => (lookupAM (update x d known).2 p.1).isNone) = [] :=
    List.filter_eq_nil_iff.mpr hall
  constructor
  · rw [update_eq x d (update x d known).2 h, hnil]
    rfl
  · rw [update_eq x d (update x d known).2 h, hnil, List.append_nil]
    rw [update_eq x d known h]
    rw [List.filter_filter]
    simp [Bool.and_self]

theorem c5_update_idempotent_witness :
    (update [("/dev/a", ⟨"K", 2⟩)] [("/dev/a", ⟨1, 2⟩)]
      (update [("/dev/a", ⟨"K", 2⟩)] [("/dev/a", ⟨1, 2⟩)] []).2).1 = [] :=
  (c5_update_idempotent [("/dev/a", ⟨"K", 2⟩)] [("/dev/a", ⟨1, 2⟩)] []
    (by decide)).1

/-- C6: a device node present in only one of the two candidate maps never
appears in the merged map, and no record the pass adds carries it. -/
theorem c6_intersection_only (x : AssocMap XInputKeyboardInfo)
    (d : AssocMap UdevKeyboardInfo) (known : AssocMap KeyboardInfo)
    (n : String) (h : lookupAM x n = none ∨ lookupAM d n = none) :
    lookupAM (mergeCandidates x d) n = none ∧
    ∀ r ∈ (update x d known).1, r.device_node ≠ n := by
  have hm : lookupAM (mergeCandidates x d) n = none := by
    rcases h with h | h
    · exact mergeCandidates_lookup_none_left d h
    · exact mergeCandidates_lookup_none_right x h
  refine ⟨hm, ?_⟩
  intro r hr he
  have hmem : r ∈ (updateLoop (mergeCandidates x d) [] known).1 := hr
  rcases updateLoop_added_mem _ [] known r hmem with ha | ⟨p, hp, hpr⟩
  · cases ha
  · have hd : p.2.device_node = p.1 := mergeCandidates_device_node hp
    have hsome := lookupAM_isSome_of_mem hp
    rw [← hpr, hd] at he
    rw [he, hm] at hsome
    cases hsome

theorem c6_intersection_only_witness :
    lookupAM (mergeCandidates [("/dev/input/event1", ⟨"KbdA", 2⟩)] [])
      "/dev/input/event1" = none :=
  (c6_intersection_only [("/dev/input/event1", ⟨"KbdA", 2⟩)] [] []
    "/dev/input/event1" (Or.inr rfl)).1

/-- C9: after `update`, the key set of the known map coincides with the
key set of this pass's merge; the added records are keyed exactly by the
merged keys that were absent from the known map before the call, and no
device node occurs twice among them. -/
theorem c9_update_key_invariant (x : AssocMap XInputKeyboardInfo)
    (d : AssocMap UdevKeyboardInfo) (known : AssocMap KeyboardInfo)
    (h : (x.map Prod.fst).Nodup) :
    (∀ n, (lookupAM (update x d known).2 n).isSome
        = (lookupAM (mergeCandidates x d) n).isSome) ∧
    ((update x d known).1.map (fun r => r.device_node)
      = ((mergeCandidates x d).map Prod.fst).filter
          (fun n => (lookupAM known n).isNone)) ∧
    ((update x d known).1.map (fun r => r.device_node)).Nodup := by
  have hmnd : ((mergeCandidates x d).map Prod.fst).Nodup :=
    (mergeCandidates_keys_sublist x d).nodup h
  have hmap : (update x d known).1.map (fun r => r.device_node)
      = ((mergeCandidates x d).map Prod.fst).filter
          (fun n => (lookupAM known n).isNone) := by
    rw [update_eq x d known h, List.map_map]
    have he : ((mergeCandidates x d).filter
        (fun p => (lookupAM known p.1).isNone)).map
          ((fun r => r.device_node) ∘ Prod.snd)
        = ((mergeCandidates x d).filter
            (fun p => (lookupAM known p.1).isNone)).map Prod.fst := by
      apply List.map_congr_left
      intro p hp
      exact mergeCandidates_device_node (List.mem_of_mem_filter hp)
    rw [he]
    exact mapfst_filter_key (fun k => (lookupAM known k).isNone)
      (mergeCandidates x d)
  refine ⟨?_, hmap, ?_⟩
  · intro n
    rw [update_known_lookup x d known h n]
    cases hm : lookupAM (mergeCandidates x d) n with
    | none => simp
    | some r => cases hk : lookupAM known n <;> simp
  · rw [hmap]
    exact List.Nodup.filter _ hmnd

theorem c9_update_key_invariant_witness :
    (update [("/dev/a", ⟨"K", 2⟩)] [("/dev/a", ⟨1, 2⟩)] []).1.map
      (fun r => r.device_node) = ["/dev/a"] :=
  ((c9_update_key_invariant [("/dev/a", ⟨"K", 2⟩)] [("/dev/a", ⟨1, 2⟩)] []
    (by decide)).2.1).trans (by decide)

/-- C1 counterexample: a device node that is already known is NOT remapped
to the record built in the current pass. After a first pass that stored
the record ("Old name", xinput 5, 1:2) for the node, a second pass whose
candidates yield ("New name", xinput 6, 3:4) for the same node leaves the
old record in the known map, although the merge of that pass built the new
one. -/
theorem c1_counterexample :
    lookupAM (update [("/dev/input/event3", ⟨"New name", 6⟩)]
        [("/dev/input/event3", ⟨3, 4⟩)]
        (update [("/dev/input/event3", ⟨"Old name", 5⟩)]
          [("/dev/input/event3", ⟨1, 2⟩)] []).2).2 "/dev/input/event3"
      = some ⟨"Old name", "/dev/input/event3", 5, 1, 2⟩ ∧
    lookupAM (mergeCandidates [("/dev/input/event3", ⟨"New name", 6⟩)]
        [("/dev/input/event3", ⟨3, 4⟩)]) "/dev/input/event3"
      = some ⟨"New name", "/dev/input/event3", 6, 3, 4⟩ ∧
    (⟨"Old name", "/dev/input/event3", 5, 1, 2⟩ : KeyboardInfo)
      ≠ ⟨"New name", "/dev/input/event3", 6, 3, 4⟩ := by
  decide

/-- C1 (amended): after `update`, the known map is keyed exactly by the
merged map of that pass; a node that was absent from the known map is
mapped to the record built in that pass (xinput name/id with
device-manager vendor/product), while a node that was already known keeps
the record it already had; every node absent from the merge is dropped. -/
theorem c1_known_map_after_update (x : AssocMap XInputKeyboardInfo)
    (d : AssocMap UdevKeyboardInfo) (known : AssocMap KeyboardInfo)
    (h : (x.map Prod.fst).Nodup) (n : String) :
    lookupAM (update x d known).2 n =
      match lookupAM (mergeCandidates x d) n, lookupAM known n with
      | some r, none => some r
      | some _, some old => some old
      | none, _ => none :=
  update_known_lookup x d known h n

theorem c1_known_map_after_update_witness :
    lookupAM (update [("/dev/a", ⟨"K", 2⟩)] [("/dev/a", ⟨1, 2⟩)] []).2
      "/dev/a" = some ⟨"K", "/dev/a", 2, 1, 2⟩ :=
  (c1_known_map_after_update [("/dev/a", ⟨"K", 2⟩)] [("/dev/a", ⟨1, 2⟩)] []
    (by decide) "/dev/a").trans (by decide)

/-- C2 counterexample: a keyboard device whose ID_VENDOR_ID holds the
unparsable value "nothex" makes the whole udev pass abort (the source
panics on `from_str_radix(..).unwrap()`, embedded as `none`), instead of
being skipped; without that device the pass returns the remaining
device. -/
theorem c2_counterexample :
    get_udev_keyboards
      [{ devnode := some "/dev/input/event9",
         props := [("ID_INPUT_KEYBOARD", "1"), ("ID_INPUT_KEY", "1"),
                   ("ID_VENDOR_ID", "nothex"), ("ID_MODEL_ID", "c52b")] },
       { devnode := some "/dev/input/event3",
         props := [("ID_INPUT_KEYBOARD", "1"), ("ID_INPUT_KEY", "1"),
                   ("ID_VENDOR_ID", "046d"), ("ID_MODEL_ID", "c52b")] }]
      = none ∧
    get_udev_keyboards
      [{ devnode := some "/dev/input/event3",
         props := [("ID_INPUT_KEYBOARD", "1"), ("ID_INPUT_KEY", "1"),
                   ("ID_VENDOR_ID", "046d"), ("ID_MODEL_ID", "c52b")] }]
      = some [("/dev/input/event3", ⟨1133, 50475⟩)] := by
  decide

/-- C2 (amended): in the device-manager enumeration, a device whose
vendor or product identifier property is MISSING is skipped and the pass
continues with the remaining devices; but a device whose identifier
property holds an UNPARSABLE hexadecimal value aborts the whole pass (the
source unwraps the parse result and panics). -/
theorem c2_missing_skipped_unparsable_fatal (device : UDevice)
    (rest : List UDevice) (acc : AssocMap UdevKeyboardInfo) :
    (property_value device "ID_VENDOR_ID" = none →
      get_udev_aux acc (device :: rest) = get_udev_aux acc rest) ∧
    (∀ vs vid, property_value device "ID_VENDOR_ID" = some vs →
      from_str_radix_16 vs = some vid →
      property_value device "ID_MODEL_ID" = none →
      get_udev_aux acc (device :: rest) = get_udev_aux acc rest) ∧
    (∀ vs, device_is_keyboard device = true →
      property_value device "ID_VENDOR_ID" = some vs →
      from_str_radix_16 vs = none →
      get_udev_aux acc (device :: rest) = none) ∧
    (∀ vs vid ps, device_is_keyboard device = true →
      property_value device "ID_VENDOR_ID" = some vs →
      from_str_radix_16 vs = some vid →
      property_value device "ID_MODEL_ID" = some ps →
      from_str_radix_16 ps = none →
      get_udev_aux acc (device :: rest) = none) := by
  refine ⟨?_, ?_, ?_, ?_⟩
  · intro hv
    by_cases hkb : device_is_keyboard device
    · rcases (device_is_keyboard_iff device).mp hkb with ⟨-, -, h3⟩
      obtain ⟨dn, hdn⟩ := Option.isSome_iff_exists.mp h3
      simp [get_udev_aux, hkb, hdn, hv]
    · simp [get_udev_aux, hkb]
  · intro vs vid hv hvp hm
    by_cases hkb : device_is_keyboard device
    · rcases (device_is_keyboard_iff device).mp hkb with ⟨-, -, h3⟩
      obtain ⟨dn, hdn⟩ := Option.isSome_iff_exists.mp h3
      simp [get_udev_aux, hkb, hdn, hv, hvp, hm]
    · simp [get_udev_aux, hkb]
  · intro vs hkb hv hvp
    rcases (device_is_keyboard_iff device).mp hkb with ⟨-, -, h3⟩
    obtain ⟨dn, hdn⟩ := Option.isSome_iff_exists.mp h3
    simp [get_udev_aux, hkb, hdn, hv, hvp]
  · intro vs vid ps hkb hv hvp hp hpp
    rcases (device_is_keyboard_iff device).mp hkb with ⟨-, -, h3⟩
    obtain ⟨dn, hdn⟩ := Option.isSome_iff_exists.mp h3
    simp [get_udev_aux, hkb, hdn, hv, hvp, hp, hpp]

theorem c2_missing_skipped_unparsable_fatal_witness :
    get_udev_aux []
      [{ devnode := some "/dev/input/event9",
         props := [("ID_INPUT_KEYBOARD", "1"), ("ID_INPUT_KEY", "1"),
                   ("ID_VENDOR_ID", "nothex"), ("ID_MODEL_ID", "c52b")] }]
      = none :=
  (c2_missing_skipped_unparsable_fatal
    { devnode := some "/dev/input/event9",
      props := [("ID_INPUT_KEYBOARD", "1"), ("ID_INPUT_KEY", "1"),
                ("ID_VENDOR_ID", "nothex"), ("ID_MODEL_ID", "c52b")] }
    [] []).2.2.1 "nothex" (by decide) (by decide) (by decide)

/-- C3: the property lookup issues an initial read of up to 256 bytes; if
that reply reports trailing bytes, the read is reissued sized to the full
reported length (`length + bytes_after`), and the resolved string equals
the payload of that full-length re-read — the whole property value, not
the truncated first payload. -/
theorem c3_two_phase_property_read (content : String)
    (h : (xServerModel content 256).bytes_after ≠ 0) :
    xinput_get_string_property (xServerModel content)
      = (xServerModel content
          ((xServerModel content 256).length
            + (xServerModel content 256).bytes_after)).data ∧
    xinput_get_string_property (xServerModel content) = content ∧
    xinput_get_string_property (xServerModel content)
      ≠ (xServerModel content 256).data := by
  obtain ⟨l⟩ := content
  have h256 : 256 < l.length := by
    simp [xServerModel, String.length] at h
    omega
  have hmin : min 256 l.length = 256 := by omega
  have hba : l.length - 256 ≠ 0 := by omega
  have htot : 256 + (l.length - 256) = l.length := by omega
  refine ⟨?_, ?_, ?_⟩
  · simp [xinput_get_string_property, xServerModel, String.length, hmin,
      hba, htot]
  · simp [xinput_get_string_property, xServerModel, String.length, hmin,
      hba, htot, List.take_length]
  · have hres : xinput_get_string_property (xServerModel ⟨l⟩)
        = String.mk l := by
      simp [xinput_get_string_property, xServerModel, String.length, hmin,
        hba, htot, List.take_length]
    rw [hres]
    intro heq
    have hlen := congrArg String.length heq
    simp [xServerModel, String.length, List.length_take, hmin] at hlen
    omega

theorem c3_two_phase_property_read_witness :
    xinput_get_string_property
      (xServerModel (String.mk (List.replicate 300 'a')))
      = String.mk (List.replicate 300 'a') :=
  (c3_two_phase_property_read (String.mk (List.replicate 300 'a'))
    (by decide)).2.1

end XSprite
